import Mathlib

/-!
Verification of the market-peak-analysis-service core pipeline.

This file gives a shallow embedding, in Lean 4, of the pure computational
core of `src/index.js`:

* a model of JavaScript runtime values (`JSVal`, `JNum`) rich enough to
  express truthiness, `typeof`, property access, `??` / `||` coalescing,
  and finiteness of numbers;
* a model of `JSON.parse` (strict JSON grammar, rationals for numbers) and
  of `JSON.stringify`;
* the fenced-code-block extraction regex used by `parseJsonFromText`,
  modelled as an explicit first-match search;
* the functions `parseJsonFromText`, `validateOutput`, `storeResult`,
  `analyze`, `generateBullPeakSummary`, `formatSeriesForPrompt`,
  `refreshDailyClosesCache` and `getCachedDailyCloses`, translated from
  the source with external I/O (HTTP fetches, Firestore, the LLM call)
  replaced by explicit outcome parameters;
* theorems settling the specification claims about those functions.
-/

/-- Model of a JavaScript number: either a finite value (as a rational) or
one of the non-finite doubles `NaN`, `Infinity`, `-Infinity`. -/
inductive JNum where
  | fin (q : ℚ)
  | nan
  | posInf
  | negInf
deriving DecidableEq

/-- `Number.isFinite`. -/
def JNum.isFiniteNum : JNum → Bool
  | .fin _ => true
  | _ => false

/-- JavaScript `<` on numbers (`NaN` compares false with everything). -/
def jnLt : JNum → JNum → Bool
  | .nan, _ => false
  | _, .nan => false
  | .fin a, .fin b => decide (a < b)
  | .fin _, .posInf => true
  | .fin _, .negInf => false
  | .posInf, _ => false
  | .negInf, .negInf => false
  | .negInf, _ => true

/-- JavaScript `>` on numbers. -/
def jnGt (a b : JNum) : Bool := jnLt b a

/-- Model of a JavaScript value as seen by the service: `undefined`, `null`,
booleans, numbers, strings, arrays and plain objects (association lists). -/
inductive JSVal where
  | undefined
  | null
  | bool (b : Bool)
  | num (n : JNum)
  | str (s : String)
  | arr (xs : List JSVal)
  | obj (fields : List (String × JSVal))

/-- JavaScript truthiness: `undefined`, `null`, `false`, `0`, `NaN` and the
empty string are falsy; every other value is truthy. -/
def truthy : JSVal → Bool
  | .undefined => false
  | .null => false
  | .bool b => b
  | .num (.fin q) => decide (q ≠ 0)
  | .num .nan => false
  | .num _ => true
  | .str s => decide (s ≠ "")
  | .arr _ => true
  | .obj _ => true

/-- JavaScript `a || b`: `a` when truthy, else `b`. -/
def jsOr (a b : JSVal) : JSVal := if truthy a then a else b

/-- `typeof`. -/
def jsTypeof : JSVal → String
  | .undefined => "undefined"
  | .null => "object"
  | .bool _ => "boolean"
  | .num _ => "number"
  | .str _ => "string"
  | .arr _ => "object"
  | .obj _ => "object"

/-- `Array.isArray`. -/
def isArrayV : JSVal → Bool
  | .arr _ => true
  | _ => false

/-- First-match lookup in an object's field list. -/
def lookupField : List (String × JSVal) → String → Option JSVal
  | [], _ => none
  | p :: rest, key => if p.1 = key then some p.2 else lookupField rest key

/-- Property access with optional chaining (`v?.k`): field lookup on plain
objects, `undefined` on every other value (including `null`/`undefined`,
which `?.` short-circuits, and primitives, which have no such properties). -/
def optGet (v : JSVal) (k : String) : JSVal :=
  match v with
  | .obj fields => (lookupField fields k).getD .undefined
  | _ => .undefined

/-- Overwrite-or-append a field, as JS object spread `({...o, k: v})` does
at the level of lookup semantics. -/
def setField (fields : List (String × JSVal)) (k : String) (v : JSVal) :
    List (String × JSVal) :=
  if (lookupField fields k).isSome then
    fields.map (fun p => if p.1 = k then (k, v) else p)
  else
    fields ++ [(k, v)]

/-! ### Character helpers (written via code points to keep literals simple) -/

def backquoteChar : Char := Char.ofNat 96
def lbraceChar : Char := Char.ofNat 123
def rbraceChar : Char := Char.ofNat 125
def quoteChar : Char := Char.ofNat 34
def backslashChar : Char := Char.ofNat 92

/-- JSON whitespace (the only whitespace `JSON.parse` skips). -/
def isJsonWs (ch : Char) : Bool :=
  ch = ' ' || ch = Char.ofNat 9 || ch = Char.ofNat 10 || ch = Char.ofNat 13

def skipWs (cs : List Char) : List Char := cs.dropWhile isJsonWs

/-! ### A model of `JSON.parse`

Strict JSON grammar; numbers are modelled as rationals (every numeral a
JSON document can contain denotes a rational), so a successfully parsed
number is always a finite `JNum.fin`. Recursion is fuelled by the input
length, which bounds the nesting depth. -/

def digitsToNat (ds : List Char) : Nat :=
  ds.foldl (fun a c => a * 10 + (c.toNat - 48)) 0

def isHexDigitCh (c : Char) : Bool :=
  c.isDigit || (97 ≤ c.toLower.toNat && c.toLower.toNat ≤ 102)

def hexDigitVal (c : Char) : Nat :=
  if c.isDigit then c.toNat - 48
  else if 97 ≤ c.toLower.toNat then c.toLower.toNat - 87 else 0

/-- Assemble a JSON numeral `sign intPart . fracDigits e expSign expDigits`
into a rational. -/
def mkJsonNum (neg : Bool) (intPart : Nat) (fracDs : List Char) (expNeg : Bool)
    (expVal : Nat) : ℚ :=
  let mantNat : Nat := intPart * 10 ^ fracDs.length + digitsToNat fracDs
  let mant : Int := if neg then -(mantNat : Int) else (mantNat : Int)
  let e : Int := (if expNeg then -(expVal : Int) else (expVal : Int)) - fracDs.length
  if 0 ≤ e then mkRat (mant * 10 ^ e.toNat) 1 else mkRat mant (10 ^ (-e).toNat)

/-- Parse the body of a JSON string literal (the opening quote already
consumed), fuelled. -/
def parseStringBody : Nat → List Char → List Char → Option (String × List Char)
  | 0, _, _ => none
  | _ + 1, [], _ => none
  | fuel + 1, ch :: rest, acc =>
    if ch = quoteChar then some (String.mk acc.reverse, rest)
    else if ch = backslashChar then
      match rest with
      | [] => none
      | e :: r2 =>
        if e = quoteChar then parseStringBody fuel r2 (quoteChar :: acc)
        else if e = backslashChar then parseStringBody fuel r2 (backslashChar :: acc)
        else if e = '/' then parseStringBody fuel r2 ('/' :: acc)
        else if e = 'b' then parseStringBody fuel r2 (Char.ofNat 8 :: acc)
        else if e = 'f' then parseStringBody fuel r2 (Char.ofNat 12 :: acc)
        else if e = 'n' then parseStringBody fuel r2 (Char.ofNat 10 :: acc)
        else if e = 'r' then parseStringBody fuel r2 (Char.ofNat 13 :: acc)
        else if e = 't' then parseStringBody fuel r2 (Char.ofNat 9 :: acc)
        else if e = 'u' then
          match r2 with
          | h1 :: h2 :: h3 :: h4 :: r6 =>
            if isHexDigitCh h1 && isHexDigitCh h2 && isHexDigitCh h3 && isHexDigitCh h4 then
              let code := ((hexDigitVal h1 * 16 + hexDigitVal h2) * 16 +
                hexDigitVal h3) * 16 + hexDigitVal h4
              parseStringBody fuel r6 (Char.ofNat code :: acc)
            else none
          | _ => none
        else none
    else if ch.toNat < 32 then none
    else parseStringBody fuel rest (ch :: acc)

/-- Parse a JSON number starting at the given characters. -/
def parseNumber (cs : List Char) : Option (JSVal × List Char) :=
  let (neg, cs1) := match cs with
    | '-' :: r => (true, r)
    | _ => (false, cs)
  match cs1 with
  | [] => none
  | d :: rest =>
    if d = '0' then
      parseNumberTail neg 0 rest
    else if d.isDigit then
      let ds := rest.takeWhile Char.isDigit
      parseNumberTail neg (digitsToNat (d :: ds)) (rest.dropWhile Char.isDigit)
    else none
where
  parseNumberTail (neg : Bool) (intPart : Nat) (cs2 : List Char) :
      Option (JSVal × List Char) :=
    let (fracDs, cs3) := match cs2 with
      | '.' :: r =>
        (r.takeWhile Char.isDigit, (r.dropWhile Char.isDigit : List Char))
      | _ => ([], cs2)
    if cs2 ≠ cs3 ∧ fracDs = [] then none
    else
      match cs3 with
      | 'e' :: r => parseExp neg intPart fracDs r
      | 'E' :: r => parseExp neg intPart fracDs r
      | _ => some (.num (.fin (mkJsonNum neg intPart fracDs false 0)), cs3)
  parseExp (neg : Bool) (intPart : Nat) (fracDs : List Char) (r : List Char) :
      Option (JSVal × List Char) :=
    let (expNeg, r2) := match r with
      | '-' :: rr => (true, rr)
      | '+' :: rr => (false, rr)
      | _ => (false, r)
    let eds := r2.takeWhile Char.isDigit
    if eds = [] then none
    else some (.num (.fin (mkJsonNum neg intPart fracDs expNeg (digitsToNat eds))),
      r2.dropWhile Char.isDigit)

mutual

/-- Parse one JSON value (leading whitespace allowed), fuelled. -/
def parseVal : Nat → List Char → Option (JSVal × List Char)
  | 0, _ => none
  | fuel + 1, cs =>
    match skipWs cs with
    | [] => none
    | ch :: rest =>
      if ch = quoteChar then
        (parseStringBody (rest.length + 1) rest []).map (fun p => (.str p.1, p.2))
      else if ch = lbraceChar then
        match skipWs rest with
        | [] => none
        | c2 :: r2 =>
          if c2 = rbraceChar then some (.obj [], r2)
          else
            match parseMembers fuel rest [] with
            | none => none
            | some (fields, r3) =>
              match skipWs r3 with
              | [] => none
              | c4 :: r4 => if c4 = rbraceChar then some (.obj fields, r4) else none
      else if ch = '[' then
        match skipWs rest with
        | [] => none
        | c2 :: r2 =>
          if c2 = ']' then some (.arr [], r2)
          else
            match parseElems fuel rest [] with
            | none => none
            | some (xs, r3) =>
              match skipWs r3 with
              | [] => none
              | c4 :: r4 => if c4 = ']' then some (.arr xs.reverse, r4) else none
      else if ch = 't' then
        match rest with
        | 'r' :: 'u' :: 'e' :: r => some (.bool true, r)
        | _ => none
      else if ch = 'f' then
        match rest with
        | 'a' :: 'l' :: 's' :: 'e' :: r => some (.bool false, r)
        | _ => none
      else if ch = 'n' then
        match rest with
        | 'u' :: 'l' :: 'l' :: r => some (.null, r)
        | _ => none
      else parseNumber (ch :: rest)

/-- Parse `key : value (, key : value)*` inside an object; stops before the
closing brace (not consumed). Duplicate keys overwrite (last wins). -/
def parseMembers : Nat → List Char → List (String × JSVal) →
    Option (List (String × JSVal) × List Char)
  | 0, _, _ => none
  | fuel + 1, cs, acc =>
    match skipWs cs with
    | [] => none
    | ch :: rest =>
      if ch = quoteChar then
        match parseStringBody (rest.length + 1) rest [] with
        | none => none
        | some (key, r1) =>
          match skipWs r1 with
          | [] => none
          | c2 :: r2 =>
            if c2 = ':' then
              match parseVal fuel r2 with
              | none => none
              | some (v, r3) =>
                let acc2 := setField acc key v
                match skipWs r3 with
                | c4 :: r4 =>
                  if c4 = ',' then parseMembers fuel r4 acc2 else some (acc2, c4 :: r4)
                | [] => some (acc2, [])
            else none
      else none

/-- Parse `value (, value)*` inside an array; accumulates in reverse. -/
def parseElems : Nat → List Char → List JSVal → Option (List JSVal × List Char)
  | 0, _, _ => none
  | fuel + 1, cs, acc =>
    match parseVal fuel cs with
    | none => none
    | some (v, r1) =>
      match skipWs r1 with
      | c2 :: r2 => if c2 = ',' then parseElems fuel r2 (v :: acc) else some (v :: acc, c2 :: r2)
      | [] => some (v :: acc, [])

end

/-- Model of `JSON.parse`: `some v` on a valid JSON document (the whole
text, up to surrounding whitespace), `none` when `JSON.parse` would throw a
`SyntaxError`. -/
def jsonParse (s : String) : Option JSVal :=
  match parseVal (s.length + 1) s.toList with
  | some (v, rest) => if (skipWs rest).isEmpty then some v else none
  | none => none

example : jsonParse "  \x7b \"a\" : 1, \"b\": [true, null] \x7d " =
    some (.obj [("a", .num (.fin 1)), ("b", .arr [.bool true, .null])]) := rfl
example : jsonParse "\x7b\"score\": 99.5\x7d" =
    some (.obj [("score", .num (.fin (mkRat 199 2)))]) := rfl
example : jsonParse "not json" = none := rfl
example : jsonParse "-1.25e2" = some (.num (.fin (mkRat (-125) 1))) := rfl
example : jsonParse "\"a\\nb\"" = some (.str "a\nb") := rfl
example : jsonParse "01" = none := rfl

/-! ### The fenced-code-block extraction of `parseJsonFromText`

The source matches the completion text against the regular expression
`/```json\s*([\s\S]*?)\s*```/i` and, when the capture group is non-empty,
parses it. The first-match semantics of that pattern reduce to: find the
first (case-insensitive) occurrence of the opening token; skip the greedy
whitespace run after it; the lazily-minimal capture group then ends at the
first occurrence of three backticks, with the whitespace run immediately
before that closer absorbed by the second `\s*`. (If the first opening
token has no closer, no later one can: a later opening token would itself
begin with three backticks and thus close the first.) -/

/-- The character class `\s` of JavaScript regular expressions. -/
def isRegexWs (ch : Char) : Bool :=
  ch = ' ' || ch = Char.ofNat 9 || ch = Char.ofNat 10 || ch = Char.ofNat 11 ||
  ch = Char.ofNat 12 || ch = Char.ofNat 13 || ch = Char.ofNat 160 ||
  ch = Char.ofNat 0x1680 || (0x2000 ≤ ch.toNat && ch.toNat ≤ 0x200a) ||
  ch = Char.ofNat 0x2028 || ch = Char.ofNat 0x2029 || ch = Char.ofNat 0x202f ||
  ch = Char.ofNat 0x205f || ch = Char.ofNat 0x3000 || ch = Char.ofNat 0xfeff

/-- The opening token, lowercased: three backticks then `json`. -/
def fenceOpenToken : List Char :=
  [backquoteChar, backquoteChar, backquoteChar, 'j', 's', 'o', 'n']

/-- Case-insensitive prefix match: returns the suffix after the pattern. -/
def matchesCi : List Char → List Char → Option (List Char)
  | [], cs => some cs
  | _ :: _, [] => none
  | p :: ps, c :: cs => if c.toLower = p then matchesCi ps cs else none

/-- Suffix after the first case-insensitive occurrence of the opening token. -/
def findFenceOpen : List Char → Option (List Char)
  | [] => none
  | c :: cs =>
    match matchesCi fenceOpenToken (c :: cs) with
    | some rest => some rest
    | none => findFenceOpen cs

def startsWithTicks : List Char → Bool
  | a :: b :: c :: _ => a = backquoteChar && b = backquoteChar && c = backquoteChar
  | _ => false

/-- Index of the first occurrence of three consecutive backticks. -/
def findTicks : List Char → Option Nat
  | [] => none
  | c :: cs =>
    if startsWithTicks (c :: cs) then some 0
    else (findTicks cs).map (· + 1)

def dropTrailingWs (l : List Char) : List Char :=
  (l.reverse.dropWhile isRegexWs).reverse

/-- The capture group of `text.match(/```json\s*([\s\S]*?)\s*```/i)`
(`fenced[1]` in the source), or `none` when there is no match. -/
def fencedGroup (text : String) : Option String :=
  match findFenceOpen text.toList with
  | none => none
  | some afterOpen =>
    let r := afterOpen.dropWhile isRegexWs
    match findTicks r with
    | none => none
    | some q => some (String.mk (dropTrailingWs (r.take q)))

/-- Error message thrown on an empty or non-string completion. -/
def emptyResponseMsg : String := "Empty AI response"

/-- Error message standing for the `SyntaxError` that an uncaught
`JSON.parse` failure raises. -/
def jsonSyntaxErrMsg : String := "SyntaxError: Unexpected token in JSON"

/-- The no-structured-output error message. -/
def noJsonFoundMsg : String := "No JSON found in AI response"

/-- `JSON.parse` at a call site with no surrounding `try`: the parsed value,
or the propagated `SyntaxError`. -/
def jparse (s : String) : Except String JSVal :=
  match jsonParse s with
  | some v => .ok v
  | none => .error jsonSyntaxErrMsg

/-- The brace-slicing fallback of `parseJsonFromText`: the substring from
the first `\x7b` to the last `\x7d`, provided both exist in that order. -/
def braceSlice (text : String) : Option String :=
  let cs := text.toList
  let first := cs.findIdx? (fun c => c = lbraceChar)
  let last := (cs.reverse.findIdx? (fun c => c = rbraceChar)).map
    (fun i => cs.length - 1 - i)
  match first, last with
  | some f, some l =>
    if f < l then some (String.mk ((cs.drop f).take (l + 1 - f))) else none
  | _, _ => none

/-- Strategies 2 and 3 of `parseJsonFromText`: the whole text as JSON (its
parse failure is caught and falls through), then the brace slice (whose
parse failure propagates); the no-structured-output error when neither
applies. -/
def parseWholeOrSlice (text : String) : Except String JSVal :=
  match jsonParse text with
  | some v => .ok v
  | none =>
    match braceSlice text with
    | some s => jparse s
    | none => .error noJsonFoundMsg

/-- `parseJsonFromText` from `src/index.js`: empty-input guard, then the
fenced block (when matched with a non-empty group, its parse failure
propagates uncaught), then strategies 2 and 3. -/
def parseJsonFromText (text : String) : Except String JSVal :=
  if text = "" then .error emptyResponseMsg
  else
    match fencedGroup text with
    | some g => if g ≠ "" then jparse g else parseWholeOrSlice text
    | none => parseWholeOrSlice text

example : fencedGroup "pre ```json \x7b\"a\":1\x7d ``` post" = some "\x7b\"a\":1\x7d" := rfl
example : fencedGroup "```JSON\n 5 \n```" = some "5" := rfl
example : fencedGroup "no fence here" = none := rfl
example : fencedGroup "```json \x7b never closed" = none := rfl
example : parseJsonFromText "pre ```json \x7b\"a\":1\x7d ``` post" =
    .ok (.obj [("a", .num (.fin 1))]) := rfl
example : parseJsonFromText "\x7b\"a\": 2\x7d" = .ok (.obj [("a", .num (.fin 2))]) := rfl
example : parseJsonFromText "text \x7b\"a\": 3\x7d trailing prose" =
    .ok (.obj [("a", .num (.fin 3))]) := rfl
example : parseJsonFromText "no structure at all" = .error noJsonFoundMsg := rfl
example : parseJsonFromText "" = .error emptyResponseMsg := rfl
example : parseJsonFromText "```json\nnot json\n```\n\x7b\"a\": 1\x7d" =
    .error jsonSyntaxErrMsg := rfl

/-! ### String conversion and `JSON.stringify`

`jsToString` models the implicit `String(...)` conversion performed by
template literals. Integral numbers (the only numeric values the claims
exercise through rendering) are rendered exactly as JavaScript does;
non-integral rationals are given a deterministic fallback rendering, since
the double shortest-round-trip algorithm is out of scope for the claims.
Both functions are fuelled by `sizeOf`, which strictly bounds the nesting
depth, to keep them kernel-reducible. -/

mutual

/-- Structural size of a `JSVal`, used as recursion fuel (it strictly
bounds the nesting depth). -/
def jsvalSize : JSVal → Nat
  | .arr xs => 1 + jsvalListSize xs
  | .obj fs => 1 + jsvalFieldsSize fs
  | _ => 1

def jsvalListSize : List JSVal → Nat
  | [] => 0
  | x :: xs => 1 + jsvalSize x + jsvalListSize xs

def jsvalFieldsSize : List (String × JSVal) → Nat
  | [] => 0
  | p :: fs => 1 + jsvalSize p.2 + jsvalFieldsSize fs

end

def jnumToString : JNum → String
  | .nan => "NaN"
  | .posInf => "Infinity"
  | .negInf => "-Infinity"
  | .fin q => if q.den = 1 then toString q.num else toString q.num ++ "/" ++ toString q.den

def jsToStringFuel : Nat → JSVal → String
  | 0, _ => ""
  | fuel + 1, v =>
    match v with
    | .undefined => "undefined"
    | .null => "null"
    | .bool b => cond b "true" "false"
    | .num n => jnumToString n
    | .str s => s
    | .arr xs =>
      String.intercalate "," (xs.map (fun x =>
        match x with
        | .null => ""
        | .undefined => ""
        | y => jsToStringFuel fuel y))
    | .obj _ => "[object Object]"

/-- `String(v)` as used by template literals (`Array.prototype.toString`
joins with commas, rendering `null`/`undefined` elements as empty). -/
def jsToString (v : JSVal) : String := jsToStringFuel (jsvalSize v) v

def hexNibble (n : Nat) : Char := if n < 10 then Char.ofNat (48 + n) else Char.ofNat (87 + n)

def escapeJsonChar (c : Char) : String :=
  if c = quoteChar then String.mk [backslashChar, quoteChar]
  else if c = backslashChar then String.mk [backslashChar, backslashChar]
  else if c = Char.ofNat 10 then String.mk [backslashChar, 'n']
  else if c = Char.ofNat 13 then String.mk [backslashChar, 'r']
  else if c = Char.ofNat 9 then String.mk [backslashChar, 't']
  else if c = Char.ofNat 8 then String.mk [backslashChar, 'b']
  else if c = Char.ofNat 12 then String.mk [backslashChar, 'f']
  else if c.toNat < 32 then
    String.mk [backslashChar, 'u', '0', '0', hexNibble (c.toNat / 16), hexNibble (c.toNat % 16)]
  else String.singleton c

def quoteJsonStr (s : String) : String :=
  String.mk [quoteChar] ++ String.join (s.toList.map escapeJsonChar) ++ String.mk [quoteChar]

def jsonStringifyFuel : Nat → JSVal → String
  | 0, _ => ""
  | fuel + 1, v =>
    match v with
    | .undefined => "null"
    | .null => "null"
    | .bool b => cond b "true" "false"
    | .num (.fin q) =>
      if q.den = 1 then toString q.num else toString q.num ++ "/" ++ toString q.den
    | .num _ => "null"
    | .str s => quoteJsonStr s
    | .arr xs =>
      "[" ++ String.intercalate "," (xs.map (fun x => jsonStringifyFuel fuel x)) ++ "]"
    | .obj fields =>
      String.mk [lbraceChar] ++
        String.intercalate "," (fields.filterMap (fun p =>
          match p.2 with
          | .undefined => none
          | w => some (quoteJsonStr p.1 ++ ":" ++ jsonStringifyFuel fuel w))) ++
        String.mk [rbraceChar]

/-- `JSON.stringify` (non-finite numbers and `undefined` array elements
become `null`; `undefined`-valued object fields are dropped). -/
def jsonStringify (v : JSVal) : String := jsonStringifyFuel (jsvalSize v) v

example : jsonStringify (.arr [.num (.fin 3), .str "a", .null]) = "[3,\"a\",null]" := rfl
example : jsToString (.num (.fin 42)) = "42" := rfl
example : jsToString (.str "hello") = "hello" := rfl

/-! ### `generateBullPeakSummary` (src/index.js lines 225-244) -/

/-- The fixed sentence returned when no usable indicator document exists. -/
def noIndicatorsMsg : String := "No Bull Market Peak Indicators available"

/-- The latest bull-peak document: `indicators` is `some list` when the
field holds an array, `none` when it is absent or not an array. -/
structure BullPeakDoc where
  indicators : Option (List JSVal)

/-- One rendered indicator line, translating the `map` callback: falsy
`indicator_name` falls back to `"Unknown Indicator"`; `hit_status` is
coerced with `!!`; `current_value || value || "N/A"` and
`threshold || "N/A"` pick the first truthy alternative. -/
def indicatorLine (ind : JSVal) : String :=
  let name := jsOr (optGet ind "indicator_name") (.str "Unknown Indicator")
  let hit := truthy (optGet ind "hit_status")
  let value := jsOr (jsOr (optGet ind "current_value") (optGet ind "value")) (.str "N/A")
  let threshold := jsOr (optGet ind "threshold") (.str "N/A")
  jsToString name ++ ": " ++ (cond hit "true" "false") ++ " (Value: " ++
    jsToString value ++ ", Threshold: " ++ jsToString threshold ++ ")"

/-- `generateBullPeakSummary`: the fixed sentence when the document is
absent or its `indicators` field is not an array; otherwise one line per
indicator, joined with newlines. -/
def generateBullPeakSummary : Option BullPeakDoc → String
  | none => noIndicatorsMsg
  | some d =>
    match d.indicators with
    | none => noIndicatorsMsg
    | some inds => String.intercalate "\n" (inds.map indicatorLine)

/-! ### `formatSeriesForPrompt` (src/index.js lines 273-280) -/

/-- `arr.filter((_, i) => i % 5 === 0)`: filtering by element index,
starting at `i`. -/
def filterEveryFifth {α : Type} : Nat → List α → List α
  | _, [] => []
  | i, x :: xs =>
    if i % 5 = 0 then x :: filterEveryFifth (i + 1) xs else filterEveryFifth (i + 1) xs

/-- `slice(-n)`: the last `n` elements (the whole list when shorter). -/
def sliceLast {α : Type} (n : Nat) (l : List α) : List α := l.drop (l.length - n)

/-- `formatSeriesForPrompt`: an explicit insufficient-data marker for an
absent, non-array or empty series (`arr : Option (List JSVal)` is `none`
when the value is missing or not an array); otherwise every 5th point,
then the last 288 sampled points, serialized. -/
def formatSeriesForPrompt (arr : Option (List JSVal)) (label : String) : String :=
  match arr with
  | none => "insufficient_" ++ label ++ "_data"
  | some l =>
    if l.length = 0 then "insufficient_" ++ label ++ "_data"
    else jsonStringify (.arr (sliceLast 288 (filterEveryFifth 0 l)))

/-! ### The daily-closes cache (src/index.js lines 104-112 and 488-558)

`refreshDailyClosesCache` performs three HTTP fetches joined by a single
`Promise.all` inside one `try`/`catch`; each fetch outcome is modelled as
an `Except`: `.error` for a rejected promise, `.ok payload` for a fulfilled
one, where `payload` is `resp.data?.data` (`none` when missing or not an
array). The `catch` swallows every failure, so the function never throws;
this is reflected by its total type. -/

/-- One raw point of a provider daily response; the alternate close-field
names mirror `d.close ?? d.price ?? d.c ?? null`. -/
structure RawDaily where
  timestamp : Int
  close : Option JNum := none
  price : Option JNum := none
  c : Option JNum := none
deriving DecidableEq

/-- One cached point (`close` keeps the coalesced, possibly-null value so
that the finiteness filter remains visible in the model). -/
structure DailyPoint where
  timestamp : Int
  close : Option JNum
deriving DecidableEq

/-- `d.close ?? d.price ?? d.c ?? null`. -/
def coalesceClose (d : RawDaily) : Option JNum :=
  (d.close.orElse fun _ => d.price).orElse fun _ => d.c

/-- `Number.isFinite` applied to a possibly-null close. -/
def optFiniteClose : Option JNum → Bool
  | some n => n.isFiniteNum
  | none => false

/-- `mapDailyClose`: normalize field names, drop non-finite closes, sort
ascending by timestamp (a stable sort, as `Array.prototype.sort` is), keep
the last 900 points. -/
def mapDailyClose (arr : Option (List RawDaily)) : List DailyPoint :=
  let mapped := (arr.getD []).map fun d =>
    { timestamp := d.timestamp, close := coalesceClose d : DailyPoint }
  let filtered := mapped.filter fun d => optFiniteClose d.close
  sliceLast 900 (List.insertionSort (fun a b => a.timestamp ≤ b.timestamp) filtered)

/-- The module-level `dailyClosesCache`. -/
structure DailyClosesCache where
  bitcoin : List DailyPoint
  ethereum : List DailyPoint
  solana : List DailyPoint
  lastFetchedAt : Int
deriving DecidableEq

/-- The cache at process start. -/
def initialDailyClosesCache : DailyClosesCache :=
  { bitcoin := [], ethereum := [], solana := [], lastFetchedAt := 0 }

/-- `refreshDailyClosesCache`: `Promise.all` rejects as soon as any of the
three fetches rejects, the `catch` then leaves the cache untouched; only
when all three fulfil are all three series replaced. No exception escapes
(the function is total). -/
def refreshDailyClosesCache (cache : DailyClosesCache)
    (btcResp ethResp solResp : Except String (Option (List RawDaily)))
    (now : Int) : DailyClosesCache :=
  match btcResp, ethResp, solResp with
  | .ok b, .ok e, .ok s =>
    { bitcoin := mapDailyClose b, ethereum := mapDailyClose e,
      solana := mapDailyClose s, lastFetchedAt := now }
  | _, _, _ => cache

inductive CacheKey where
  | bitcoin
  | ethereum
  | solana
deriving DecidableEq

/-- The symbol-to-key mapping of `getCachedDailyCloses`: anything other
than `"ethereum"` and `"solana"` maps to `bitcoin`. -/
def symbolKey (symbol : String) : CacheKey :=
  if symbol = "ethereum" then .ethereum
  else if symbol = "solana" then .solana
  else .bitcoin

def cacheLookup (c : DailyClosesCache) : CacheKey → List DailyPoint
  | .bitcoin => c.bitcoin
  | .ethereum => c.ethereum
  | .solana => c.solana

/-- `getCachedDailyCloses`: return the cached series when non-empty;
otherwise run one refresh (with the given fetch outcomes) and return
whatever the cache then holds. Returns the series together with the cache
state after the call. -/
def getCachedDailyCloses (cache : DailyClosesCache) (symbol : String)
    (btcResp ethResp solResp : Except String (Option (List RawDaily)))
    (now : Int) : List DailyPoint × DailyClosesCache :=
  let key := symbolKey symbol
  let cached := cacheLookup cache key
  if cached.length > 0 then (cached, cache)
  else
    let c2 := refreshDailyClosesCache cache btcResp ethResp solResp now
    (cacheLookup c2 key, c2)

/-! ### `validateOutput` (src/index.js lines 385-397) -/

def requiredKeys : List String := ["score", "analysis", "reasoning", "key_factors"]

/-- The `in` operator: property presence on objects, index-only properties
on arrays (so never one of the required names), a `TypeError` on
primitives. -/
def propPresent (o : JSVal) (k : String) : Except String Bool :=
  match o with
  | .obj fields => .ok (lookupField fields k).isSome
  | .arr _ => .ok false
  | _ => .error "TypeError: cannot use in operator"

/-- The `for (const k of required)` presence loop. -/
def checkRequired (o : JSVal) : List String → Except String Unit
  | [] => .ok ()
  | k :: ks =>
    match propPresent o k with
    | .error e => .error e
    | .ok true => checkRequired o ks
    | .ok false => .error ("Missing: " ++ k)

/-- `typeof score !== "number" || score < 1 || score > 100 ||
!Number.isFinite(score)`. -/
def scoreBad (v : JSVal) : Bool :=
  match v with
  | .num n => jnLt n (.fin 1) || jnGt n (.fin 100) || !n.isFiniteNum
  | _ => true

/-- `validateOutput`: presence of the four required fields, the score
check, and the `Array.isArray` check on `key_factors`, in source order. -/
def validateOutput (o : JSVal) : Except String Unit :=
  match checkRequired o requiredKeys with
  | .error e => .error e
  | .ok _ =>
    if scoreBad (optGet o "score") then .error "score must be 1..100 number"
    else if !isArrayV (optGet o "key_factors") then .error "key_factors must be array"
    else .ok ()

/-! ### `storeResult` and `analyze` (src/index.js lines 399-457) -/

/-- What `storeResult` resolves to. -/
structure StoreStatus where
  stored : Bool
  id : Option String := none
  reason : Option String := none
deriving DecidableEq

/-- `storeResult`: a soft failure when Firestore was never initialized;
otherwise the outcome of the `add` call (whose rejection propagates). -/
def storeResult (dbAvailable : Bool) (addOutcome : Except String String) :
    Except String StoreStatus :=
  if !dbAvailable then .ok { stored := false, reason := some "firestore_not_available" }
  else
    match addOutcome with
    | .error e => .error e
    | .ok docId => .ok { stored := true, id := some docId }

/-- The `analysis_metadata` object merged into a validated result. -/
def analysisMeta (durationMs : Int) : JSVal :=
  .obj [("model", .str "openai/gpt-5-mini"),
    ("data_sources", .arr [.str "BULL_PEAK", .str "BTC", .str "ETH", .str "SOL"]),
    ("collection_duration_ms", .num (.fin (mkRat durationMs 1)))]

/-- `{...parsed, analysis_metadata: {...}}`. `validateOutput` only accepts
plain objects, so `analyze` never reaches the non-object branch. -/
def enrichResult (v : JSVal) (durationMs : Int) : JSVal :=
  match v with
  | .obj fields => .obj (setField fields "analysis_metadata" (analysisMeta durationMs))
  | other => other

/-- The environment of one `analyze` run: the outcome of the completion
call (`buildPromptData` itself cannot throw — every fetch inside it is
caught per-asset and the cache refresh swallows its own failures — so the
missing-key and transport errors of `callLLM` are folded into `llmText`),
the Firestore availability flag, the outcome of the `add` call, and the
measured duration. -/
structure AnalyzeEnv where
  llmText : Except String String
  dbAvailable : Bool
  addOutcome : Except String String
  durationMs : Int

/-- What a successful `analyze` resolves to. -/
structure AnalyzeSuccess where
  success : Bool
  analysis : JSVal
  storage : StoreStatus

/-- `analyze`: completion call, JSON extraction, validation, metadata
enrichment, persistence; a rejection at any step propagates and aborts the
run. -/
def analyze (env : AnalyzeEnv) : Except String AnalyzeSuccess :=
  match env.llmText with
  | .error e => .error e
  | .ok text =>
    match parseJsonFromText text with
    | .error e => .error e
    | .ok parsed =>
      match validateOutput parsed with
      | .error e => .error e
      | .ok _ =>
        let enriched := enrichResult parsed env.durationMs
        match storeResult env.dbAvailable env.addOutcome with
        | .error e => .error e
        | .ok storage => .ok { success := true, analysis := enriched, storage := storage }

/-! ## Helper lemmas -/

theorem checkRequired_ok_iff (fields : List (String × JSVal)) (ks : List String) :
    checkRequired (.obj fields) ks = .ok () ↔
      ∀ k ∈ ks, (lookupField fields k).isSome := by
  induction ks with
  | nil => simp [checkRequired]
  | cons k ks ih =>
    cases h : (lookupField fields k).isSome with
    | true => simp [checkRequired, propPresent, h, ih]
    | false => simp [checkRequired, propPresent, h]

theorem checkRequired_missing (fields : List (String × JSVal)) (ks : List String)
    (k : String) (h : ks.find? (fun k0 => (lookupField fields k0).isNone) = some k) :
    checkRequired (.obj fields) ks = .error ("Missing: " ++ k) := by
  induction ks with
  | nil => simp at h
  | cons k0 ks ih =>
    cases hl : lookupField fields k0 with
    | none =>
      rw [List.find?_cons_of_pos _ (by simp [hl])] at h
      cases h
      simp [checkRequired, propPresent, hl]
    | some v =>
      rw [List.find?_cons_of_neg _ (by simp [hl])] at h
      simp [checkRequired, propPresent, hl, ih h]

theorem scoreBad_eq_false_iff (v : JSVal) :
    scoreBad v = false ↔ ∃ q : ℚ, v = .num (.fin q) ∧ 1 ≤ q ∧ q ≤ 100 := by
  cases v with
  | num n =>
    cases n with
    | fin q => simp [scoreBad, jnLt, jnGt, JNum.isFiniteNum, not_lt]
    | nan => simp [scoreBad, jnLt, jnGt, JNum.isFiniteNum]
    | posInf => simp [scoreBad, jnLt, jnGt, JNum.isFiniteNum]
    | negInf => simp [scoreBad, jnLt, jnGt, JNum.isFiniteNum]
  | undefined => simp [scoreBad]
  | null => simp [scoreBad]
  | bool b => simp [scoreBad]
  | str s => simp [scoreBad]
  | arr xs => simp [scoreBad]
  | obj fs => simp [scoreBad]

theorem isArrayV_iff (v : JSVal) : isArrayV v = true ↔ ∃ xs, v = .arr xs := by
  cases v <;> simp [isArrayV]

theorem validateOutput_obj_ok_iff (fields : List (String × JSVal)) :
    validateOutput (.obj fields) = .ok () ↔
      ((∀ k ∈ requiredKeys, (lookupField fields k).isSome) ∧
       scoreBad (optGet (.obj fields) "score") = false ∧
       isArrayV (optGet (.obj fields) "key_factors") = true) := by
  unfold validateOutput
  cases h : checkRequired (.obj fields) requiredKeys with
  | error e =>
    constructor
    · intro hfalse; exact absurd hfalse (by simp)
    · rintro ⟨hall, -, -⟩
      exact absurd ((checkRequired_ok_iff fields requiredKeys).mpr hall) (by simp [h])
  | ok u =>
    have hall := (checkRequired_ok_iff fields requiredKeys).mp (by cases u; exact h)
    cases hs : scoreBad (optGet (.obj fields) "score") with
    | true => simp [hs]
    | false =>
      cases ha : isArrayV (optGet (.obj fields) "key_factors") with
      | true =>
        simp [hs, ha]
        exact hall
      | false => simp [hs, ha]

/-- C3: `validateOutput` accepts an object exactly when all of `score`,
`analysis`, `reasoning`, `key_factors` are present, `score` is a finite
number in the inclusive range `[1, 100]` (so `0` and `101` fail while `1`
and `100` pass the range check), and `key_factors` is an array; when a
required field is missing, it rejects the object naming the first missing
field. -/
theorem validateOutput_spec (fields : List (String × JSVal)) :
    (validateOutput (.obj fields) = .ok () ↔
      ((∀ k ∈ requiredKeys, (lookupField fields k).isSome) ∧
       (∃ q : ℚ, optGet (.obj fields) "score" = .num (.fin q) ∧ 1 ≤ q ∧ q ≤ 100) ∧
       (∃ xs, optGet (.obj fields) "key_factors" = .arr xs))) ∧
    (∀ k, requiredKeys.find? (fun k0 => (lookupField fields k0).isNone) = some k →
      validateOutput (.obj fields) = .error ("Missing: " ++ k)) := by
  constructor
  · rw [validateOutput_obj_ok_iff, scoreBad_eq_false_iff, isArrayV_iff]
  · intro k hk
    unfold validateOutput
    rw [checkRequired_missing fields requiredKeys k hk]

def goodFields : List (String × JSVal) :=
  [("score", .num (.fin 100)), ("analysis", .str "solid"),
   ("reasoning", .str "because"), ("key_factors", .arr [.str "x"])]

/-- C3 witness: a fully-populated object with `score = 100` is accepted,
and an object missing `score` is rejected naming `score`. -/
theorem validateOutput_spec_witness :
    validateOutput (.obj goodFields) = .ok () ∧
    validateOutput (.obj [("analysis", .str "a")]) = .error ("Missing: " ++ "score") := by
  constructor
  · exact (validateOutput_spec goodFields).1.mpr
      ⟨by decide, ⟨100, rfl, by norm_num, by norm_num⟩, ⟨[.str "x"], rfl⟩⟩
  · exact (validateOutput_spec [("analysis", .str "a")]).2 "score" (by decide)

/-- C5 (amended): the fixed sentence is produced exactly when the snapshot
is absent or its `indicators` field is missing or not a sequence; a present
indicator list renders as one formatted line per indicator joined by
newlines (so an empty list yields the empty string, not the sentence); in
each line the name falls back to `"Unknown Indicator"` and the value and
threshold render as `"N/A"` whenever the corresponding field is missing
*or otherwise falsy* (for example a present value of `0`). -/
theorem generateBullPeakSummary_spec :
    (generateBullPeakSummary none = noIndicatorsMsg) ∧
    (∀ d : BullPeakDoc, d.indicators = none →
      generateBullPeakSummary (some d) = noIndicatorsMsg) ∧
    (∀ (d : BullPeakDoc) (inds : List JSVal), d.indicators = some inds →
      generateBullPeakSummary (some d) =
        String.intercalate "\n" (inds.map indicatorLine)) ∧
    (∀ ind : JSVal,
      indicatorLine ind =
        (if truthy (optGet ind "indicator_name") then jsToString (optGet ind "indicator_name")
         else "Unknown Indicator") ++ ": " ++
        (cond (truthy (optGet ind "hit_status")) "true" "false") ++ " (Value: " ++
        (if truthy (optGet ind "current_value") then jsToString (optGet ind "current_value")
         else if truthy (optGet ind "value") then jsToString (optGet ind "value")
         else "N/A") ++ ", Threshold: " ++
        (if truthy (optGet ind "threshold") then jsToString (optGet ind "threshold")
         else "N/A") ++ ")") := by
  refine ⟨rfl, ?_, ?_, ?_⟩
  · intro d hd
    simp [generateBullPeakSummary, hd]
  · intro d inds hd
    simp [generateBullPeakSummary, hd]
  · intro ind
    cases h1 : truthy (optGet ind "indicator_name") <;>
      cases h2 : truthy (optGet ind "current_value") <;>
        cases h3 : truthy (optGet ind "value") <;>
          cases h4 : truthy (optGet ind "threshold") <;>
            simp [indicatorLine, jsOr, h1, h2, h3, h4, jsToString, jsToStringFuel,
              jsvalSize]

/-- An indicator whose `current_value` is present but `0` (falsy). -/
def zeroValueIndicator : JSVal :=
  .obj [("indicator_name", .str "X"), ("hit_status", .bool true),
    ("current_value", .num (.fin 0)), ("threshold", .num (.fin 5))]

/-- C5 counterexample: a snapshot whose `indicators` field is an *empty*
sequence renders as the empty string, not the fixed "no data available"
sentence; and a present-but-zero `current_value` renders as `"N/A"`, so it
is not only missing fields that render as the literal `"N/A"`. -/
theorem generateBullPeakSummary_counterexample :
    generateBullPeakSummary (some { indicators := some [] }) = "" ∧
    "" ≠ noIndicatorsMsg ∧
    generateBullPeakSummary (some { indicators := some [zeroValueIndicator] }) =
      "X: true (Value: N/A, Threshold: 5)" := by
  refine ⟨rfl, by decide, rfl⟩

/-- C5 witness: the map-join conjunct of the claim theorem applied to a
concrete one-indicator snapshot. -/
theorem generateBullPeakSummary_spec_witness :
    generateBullPeakSummary (some { indicators := some [zeroValueIndicator] }) =
      String.intercalate "\n" ([zeroValueIndicator].map indicatorLine) :=
  generateBullPeakSummary_spec.2.2.1 { indicators := some [zeroValueIndicator] }
    [zeroValueIndicator] rfl

theorem filterEveryFifth_add_five {α : Type} (l : List α) :
    ∀ i, filterEveryFifth (i + 5) l = filterEveryFifth i l := by
  induction l with
  | nil => intro i; simp [filterEveryFifth]
  | cons x xs ih =>
    intro i
    simp only [filterEveryFifth, Nat.add_mod_right]
    rw [show i + 5 + 1 = i + 1 + 5 by omega, ih (i + 1)]

theorem filterEveryFifth_shift {α : Type} (l : List α) :
    ∀ j, 0 < j → j < 5 → filterEveryFifth j l = filterEveryFifth 0 (l.drop (5 - j)) := by
  induction l with
  | nil => intro j h0 h5; simp [filterEveryFifth]
  | cons x xs ih =>
    intro j h0 h5
    have hmod : j % 5 = j := Nat.mod_eq_of_lt h5
    simp only [filterEveryFifth, hmod]
    rw [if_neg (Nat.pos_iff_ne_zero.mp h0)]
    by_cases h4 : j = 4
    · subst h4
      rw [show (4 : Nat) + 1 = 0 + 5 by omega, filterEveryFifth_add_five xs 0]
      simp
    · have h15 : j + 1 < 5 := by omega
      rw [ih (j + 1) (by omega) h15]
      rw [show (5 : Nat) - j = (5 - (j + 1)) + 1 by omega]
      rfl

theorem filterEveryFifth_cons {α : Type} (x : α) (xs : List α) :
    filterEveryFifth 0 (x :: xs) = x :: filterEveryFifth 0 (xs.drop 4) := by
  simp only [filterEveryFifth, Nat.zero_mod]
  rw [show (0 : Nat) + 1 = 1 by omega, filterEveryFifth_shift xs 1 (by omega) (by omega)]
  simp

theorem filterEveryFifth_get {α : Type} :
    ∀ (l : List α) (k : Nat), (filterEveryFifth 0 l)[k]? = l[5 * k]?
  | [], _ => by simp [filterEveryFifth]
  | x :: xs, 0 => by rw [filterEveryFifth_cons]; simp
  | x :: xs, k + 1 => by
    rw [filterEveryFifth_cons]
    have ih := filterEveryFifth_get (xs.drop 4) k
    rw [List.getElem?_cons_succ, ih, List.getElem?_drop,
      show 5 * (k + 1) = (4 + 5 * k) + 1 by omega, List.getElem?_cons_succ]
termination_by l _ => l.length
decreasing_by simp [List.length_drop]; omega

theorem sliceLast_length_le {α : Type} (n : Nat) (l : List α) :
    (sliceLast n l).length ≤ n := by
  simp [sliceLast]
  omega

theorem sliceLast_isSuffix {α : Type} (n : Nat) (l : List α) :
    List.IsSuffix (sliceLast n l) l :=
  List.drop_suffix _ _

/-- C8: `formatSeriesForPrompt` renders an absent or empty window as the
explicit `insufficient_<label>_data` marker; a non-empty window is
down-sampled by keeping exactly the elements at 0-indexed positions that
are multiples of 5 (the k-th sampled element is the input's 5k-th
element), truncated to the last 288 sampled elements (a suffix of the
sample, of length at most 288), and serialized. -/
theorem formatSeriesForPrompt_spec (label : String) :
    (formatSeriesForPrompt none label = "insufficient_" ++ label ++ "_data") ∧
    (formatSeriesForPrompt (some []) label = "insufficient_" ++ label ++ "_data") ∧
    (∀ l : List JSVal, l ≠ [] →
      formatSeriesForPrompt (some l) label =
        jsonStringify (.arr (sliceLast 288 (filterEveryFifth 0 l)))) ∧
    (∀ (l : List JSVal) (k : Nat), (filterEveryFifth 0 l)[k]? = l[5 * k]?) ∧
    (∀ l : List JSVal, (sliceLast 288 (filterEveryFifth 0 l)).length ≤ 288 ∧
      List.IsSuffix (sliceLast 288 (filterEveryFifth 0 l)) (filterEveryFifth 0 l)) := by
  refine ⟨rfl, rfl, ?_, fun l k => filterEveryFifth_get l k,
    fun l => ⟨sliceLast_length_le _ _, sliceLast_isSuffix _ _⟩⟩
  intro l hl
  have : l.length ≠ 0 := by
    intro h
    exact hl (List.length_eq_zero.mp h)
  simp [formatSeriesForPrompt, this]

/-- C8 witness: the marker case and the serialization case instantiated on
concrete windows. -/
theorem formatSeriesForPrompt_spec_witness :
    formatSeriesForPrompt none "btc24" = "insufficient_" ++ "btc24" ++ "_data" ∧
    formatSeriesForPrompt (some [JSVal.num (.fin 1)]) "btc24" =
      jsonStringify (.arr (sliceLast 288 (filterEveryFifth 0 [JSVal.num (.fin 1)]))) :=
  ⟨(formatSeriesForPrompt_spec "btc24").1,
   (formatSeriesForPrompt_spec "btc24").2.2.1 [JSVal.num (.fin 1)]
     (List.cons_ne_nil _ _)⟩

/-- C1 (amended): the three daily fetches are joined all-or-nothing by a
single `Promise.all`: when all three fulfil, all three cached series are
replaced with the normalized data; when *any* fetch fails, *no* asset's
series is replaced — the entire previous cache (including the assets whose
fetches succeeded) is left unchanged — and no exception escapes `refresh`
(the function is total and the failure branch returns the old cache). -/
theorem refreshDailyClosesCache_allOrNothing (cache : DailyClosesCache)
    (b e s : Except String (Option (List RawDaily))) (now : Int) :
    (∀ rb re rs, b = .ok rb → e = .ok re → s = .ok rs →
      refreshDailyClosesCache cache b e s now =
        { bitcoin := mapDailyClose rb, ethereum := mapDailyClose re,
          solana := mapDailyClose rs, lastFetchedAt := now }) ∧
    (∀ msg, (b = .error msg ∨ e = .error msg ∨ s = .error msg) →
      refreshDailyClosesCache cache b e s now = cache) := by
  constructor
  · rintro rb re rs rfl rfl rfl
    rfl
  · rintro msg (rfl | rfl | rfl)
    · cases e <;> cases s <;> rfl
    · cases b <;> cases s <;> rfl
    · cases b <;> cases e <;> rfl

/-- A raw provider point with a finite close. -/
def sampleRawDaily : RawDaily := { timestamp := 1, close := some (.fin 5) }

/-- C1 counterexample: the bitcoin fetch fails while the ethereum and
solana fetches succeed with non-empty data, yet neither the ethereum nor
the solana series is replaced — the whole cache stays at its previous
(empty) state, refuting per-asset partial success. -/
theorem refreshDailyClosesCache_counterexample :
    refreshDailyClosesCache initialDailyClosesCache (.error "network down")
      (.ok (some [sampleRawDaily])) (.ok (some [sampleRawDaily])) 7 =
      initialDailyClosesCache ∧
    initialDailyClosesCache.ethereum = [] ∧
    mapDailyClose (some [sampleRawDaily]) =
      [{ timestamp := 1, close := some (.fin 5) }] :=
  ⟨rfl, rfl, rfl⟩

/-- C1 witness: the claim theorem applied to a concrete total-success
refresh and a concrete partial-failure refresh. -/
theorem refreshDailyClosesCache_allOrNothing_witness :
    refreshDailyClosesCache initialDailyClosesCache (.ok none) (.ok none) (.ok none) 7 =
      { bitcoin := mapDailyClose none, ethereum := mapDailyClose none,
        solana := mapDailyClose none, lastFetchedAt := 7 } ∧
    refreshDailyClosesCache initialDailyClosesCache (.error "network down")
      (.ok none) (.ok none) 7 = initialDailyClosesCache :=
  ⟨(refreshDailyClosesCache_allOrNothing initialDailyClosesCache
      (.ok none) (.ok none) (.ok none) 7).1 none none none rfl rfl rfl,
   (refreshDailyClosesCache_allOrNothing initialDailyClosesCache
      (.error "network down") (.ok none) (.ok none) 7).2 "network down" (Or.inl rfl)⟩

/-! ## Cached-series invariants (C4, C10) -/

/-- The invariant of one cached daily series: capped at 900 points, sorted
non-decreasing by timestamp, every close finite. -/
def seriesOk (l : List DailyPoint) : Prop :=
  l.length ≤ 900 ∧ l.Pairwise (fun a b => a.timestamp ≤ b.timestamp) ∧
  ∀ d ∈ l, optFiniteClose d.close = true

instance instIsTotalDailyTsLe :
    IsTotal DailyPoint (fun a b => a.timestamp ≤ b.timestamp) :=
  ⟨fun a b => le_total a.timestamp b.timestamp⟩

instance instIsTransDailyTsLe :
    IsTrans DailyPoint (fun a b => a.timestamp ≤ b.timestamp) :=
  ⟨fun _ _ _ hab hbc => le_trans hab hbc⟩

theorem seriesOk_mapDailyClose (arr : Option (List RawDaily)) :
    seriesOk (mapDailyClose arr) := by
  have hsorted := List.sorted_insertionSort
    (fun a b : DailyPoint => a.timestamp ≤ b.timestamp)
    (((arr.getD []).map fun d =>
      { timestamp := d.timestamp, close := coalesceClose d : DailyPoint }).filter
        fun d => optFiniteClose d.close)
  have hperm := List.perm_insertionSort
    (fun a b : DailyPoint => a.timestamp ≤ b.timestamp)
    (((arr.getD []).map fun d =>
      { timestamp := d.timestamp, close := coalesceClose d : DailyPoint }).filter
        fun d => optFiniteClose d.close)
  refine ⟨sliceLast_length_le _ _, ?_, ?_⟩
  · exact List.Pairwise.sublist (List.drop_sublist _ _) hsorted
  · intro d hd
    have h1 := List.drop_subset _ _ hd
    have h2 := hperm.subset h1
    exact (List.mem_filter.mp h2).2

/-- The invariant of the whole cache. -/
def cacheOk (c : DailyClosesCache) : Prop :=
  seriesOk c.bitcoin ∧ seriesOk c.ethereum ∧ seriesOk c.solana

theorem cacheOk_initial : cacheOk initialDailyClosesCache := by
  refine ⟨?_, ?_, ?_⟩ <;> exact ⟨by simp [initialDailyClosesCache],
    by simp [initialDailyClosesCache], by simp [initialDailyClosesCache]⟩

theorem cacheOk_refresh (c : DailyClosesCache)
    (b e s : Except String (Option (List RawDaily))) (now : Int)
    (h : cacheOk c) : cacheOk (refreshDailyClosesCache c b e s now) := by
  cases b with
  | error eb => exact h
  | ok rb =>
    cases e with
    | error ee => exact h
    | ok re =>
      cases s with
      | error es => exact h
      | ok rs =>
        refine ⟨?_, ?_, ?_⟩ <;>
          simp only [refreshDailyClosesCache] <;>
          exact seriesOk_mapDailyClose _

theorem cacheOk_lookup (c : DailyClosesCache) (h : cacheOk c) (k : CacheKey) :
    seriesOk (cacheLookup c k) := by
  cases k with
  | bitcoin => exact h.1
  | ethereum => exact h.2.1
  | solana => exact h.2.2

theorem mapDailyClose_strict (arr : Option (List RawDaily))
    (hne : (arr.getD []).Pairwise fun x y => x.timestamp ≠ y.timestamp) :
    (mapDailyClose arr).Pairwise fun a b => a.timestamp < b.timestamp := by
  have hmap : (((arr.getD []).map fun d =>
      { timestamp := d.timestamp, close := coalesceClose d : DailyPoint })).Pairwise
      (fun a b : DailyPoint => a.timestamp ≠ b.timestamp) := by
    refine List.Pairwise.map _ ?_ hne
    intro a b hab
    simpa using hab
  have hfil : ((((arr.getD []).map fun d =>
      { timestamp := d.timestamp, close := coalesceClose d : DailyPoint })).filter
        fun d => optFiniteClose d.close).Pairwise
      (fun a b : DailyPoint => a.timestamp ≠ b.timestamp) :=
    List.Pairwise.sublist (List.filter_sublist _) hmap
  have hsorted := List.sorted_insertionSort
    (fun a b : DailyPoint => a.timestamp ≤ b.timestamp)
    (((arr.getD []).map fun d =>
      { timestamp := d.timestamp, close := coalesceClose d : DailyPoint }).filter
        fun d => optFiniteClose d.close)
  have hperm := List.perm_insertionSort
    (fun a b : DailyPoint => a.timestamp ≤ b.timestamp)
    (((arr.getD []).map fun d =>
      { timestamp := d.timestamp, close := coalesceClose d : DailyPoint }).filter
        fun d => optFiniteClose d.close)
  have hneSort := (hperm.pairwise_iff (fun hxy => Ne.symm hxy)).mpr hfil
  have hcomb := List.Pairwise.and hsorted hneSort
  have hlt := hcomb.imp (fun hab => lt_of_le_of_ne hab.1 hab.2)
  exact List.Pairwise.sublist (List.drop_sublist _ _) hlt

/-- C4 (amended): starting from any cache state satisfying the series
invariants (as the initial empty cache does, and as every refresh
preserves), the series returned by `getCachedDailyCloses` has length at
most 900, is sorted *non-decreasing* by timestamp, and contains no point
with a non-finite close; it is strictly ascending whenever the provider's
raw series has pairwise-distinct timestamps, but duplicate provider
timestamps survive the (stable, non-deduplicating) sort, so strict ascent
does not hold for every raw series. -/
theorem getCachedDailyCloses_invariant (cache : DailyClosesCache) (symbol : String)
    (b e s : Except String (Option (List RawDaily))) (now : Int)
    (h : cacheOk cache) :
    seriesOk (getCachedDailyCloses cache symbol b e s now).1 ∧
    (∀ arr : Option (List RawDaily),
      ((arr.getD []).Pairwise fun x y => x.timestamp ≠ y.timestamp) →
      (mapDailyClose arr).Pairwise fun a b => a.timestamp < b.timestamp) := by
  refine ⟨?_, fun arr harr => mapDailyClose_strict arr harr⟩
  simp only [getCachedDailyCloses]
  split
  · exact cacheOk_lookup cache h (symbolKey symbol)
  · exact cacheOk_lookup _ (cacheOk_refresh cache b e s now h) (symbolKey symbol)

/-- Two raw provider points sharing one timestamp. -/
def dupRaw : List RawDaily :=
  [{ timestamp := 1, close := some (.fin 5) }, { timestamp := 1, close := some (.fin 6) }]

/-- C4 counterexample: when the provider returns two points with the same
timestamp, the series returned by `getCachedDailyCloses` keeps both, so it
is *not* strictly ascending by timestamp. -/
theorem getCachedDailyCloses_counterexample :
    (getCachedDailyCloses initialDailyClosesCache "bitcoin"
      (.ok (some dupRaw)) (.ok none) (.ok none) 0).1 =
      [{ timestamp := 1, close := some (.fin 5) },
       { timestamp := 1, close := some (.fin 6) }] ∧
    ¬ (([{ timestamp := 1, close := some (.fin 5) },
         { timestamp := 1, close := some (.fin 6) }] : List DailyPoint).Pairwise
          fun a b => a.timestamp < b.timestamp) := by
  refine ⟨rfl, ?_⟩
  intro h
  have h16 := List.rel_of_pairwise_cons h (List.mem_singleton_self _)
  exact lt_irrefl (1 : Int) h16

/-- C4 witness: the claim theorem applied to the initial cache and a
concrete refresh outcome, plus the strictness conjunct instantiated on a
distinct-timestamp raw series. -/
theorem getCachedDailyCloses_invariant_witness :
    seriesOk (getCachedDailyCloses initialDailyClosesCache "bitcoin"
      (.ok (some [sampleRawDaily])) (.ok none) (.ok none) 0).1 ∧
    (mapDailyClose (some [sampleRawDaily])).Pairwise
      (fun a b => a.timestamp < b.timestamp) := by
  have h := getCachedDailyCloses_invariant initialDailyClosesCache "bitcoin"
    (.ok (some [sampleRawDaily])) (.ok none) (.ok none) 0 cacheOk_initial
  exact ⟨h.1, h.2 (some [sampleRawDaily]) (by simp [sampleRawDaily])⟩

/-- C10 (amended): for every symbol other than `"ethereum"` and
`"solana"` — including unknown or misspelled asset names —
`getCachedDailyCloses` behaves exactly as it does for `"bitcoin"`: it
returns the bitcoin cached series (never a per-unknown-asset error; the
function is total), and in particular the cached bitcoin series itself
whenever that series is non-empty. The result can still be empty when the
bitcoin cache is empty and the fallback refresh yields nothing, so "never
an empty result" does not hold. -/
theorem getCachedDailyCloses_unknownSymbol (cache : DailyClosesCache)
    (symbol : String) (b e s : Except String (Option (List RawDaily))) (now : Int)
    (h1 : symbol ≠ "ethereum") (h2 : symbol ≠ "solana") :
    getCachedDailyCloses cache symbol b e s now =
      getCachedDailyCloses cache "bitcoin" b e s now ∧
    (cache.bitcoin ≠ [] →
      (getCachedDailyCloses cache symbol b e s now).1 = cache.bitcoin) := by
  have hk : symbolKey symbol = .bitcoin := by
    simp [symbolKey, h1, h2]
  have hkb : symbolKey "bitcoin" = .bitcoin := rfl
  constructor
  · simp only [getCachedDailyCloses, hk, hkb]
  · intro hne
    have hpos : cache.bitcoin.length > 0 := List.length_pos.mpr hne
    simp only [getCachedDailyCloses, hk, cacheLookup]
    rw [if_pos hpos]

/-- A cache whose bitcoin series is populated. -/
def cacheWithBtc : DailyClosesCache :=
  { bitcoin := [{ timestamp := 3, close := some (.fin 9) }],
    ethereum := [], solana := [], lastFetchedAt := 0 }

/-- C10 witness: the claim theorem applied to the unknown symbol
`"dogecoin"` with a populated bitcoin cache. -/
theorem getCachedDailyCloses_unknownSymbol_witness :
    (getCachedDailyCloses cacheWithBtc "dogecoin"
      (.error "down") (.error "down") (.error "down") 0).1 = cacheWithBtc.bitcoin :=
  (getCachedDailyCloses_unknownSymbol cacheWithBtc "dogecoin"
    (.error "down") (.error "down") (.error "down") 0
    (by decide) (by decide)).2 (List.cons_ne_nil _ _)

/-- C10 counterexample: with an empty bitcoin cache and a failing refresh,
an unknown symbol yields the *empty* series, refuting "never an empty
result". -/
theorem getCachedDailyCloses_unknownSymbol_counterexample :
    (getCachedDailyCloses initialDailyClosesCache "dogecoin"
      (.error "down") (.error "down") (.error "down") 0).1 = [] := rfl

/-- C2 (amended): `parseJsonFromText` tries the three strategies in order,
but a strategy that *matches* and then fails to parse does not fall
through to the next one in every case: (1) when a labeled fence with a
non-empty capture is present, its interior alone decides the outcome — a
parse failure there propagates as a `SyntaxError`, the remaining
strategies are not tried; (2) only the whole-text parse failure is caught
and falls through to (3) brace-slicing, whose own parse failure again
propagates as a `SyntaxError`; the no-structured-output error is raised
exactly when the text is non-empty, no fence applies, the whole text does
not parse, and no first-`\x7b`-to-last-`\x7d` slice exists. In particular,
text with no fence but valid JSON between the first `\x7b` and the last
`\x7d` followed by trailing prose succeeds via brace-slicing. An empty
completion raises the distinct empty-response error. -/
theorem parseJsonFromText_chain (text : String) :
    (text = "" → parseJsonFromText text = .error emptyResponseMsg) ∧
    (∀ g, text ≠ "" → fencedGroup text = some g → g ≠ "" →
      parseJsonFromText text = jparse g) ∧
    (text ≠ "" → (fencedGroup text = none ∨ fencedGroup text = some "") →
      parseJsonFromText text = parseWholeOrSlice text) ∧
    (∀ v, jsonParse text = some v → parseWholeOrSlice text = .ok v) ∧
    (jsonParse text = none → ∀ s, braceSlice text = some s →
      parseWholeOrSlice text = jparse s) ∧
    (parseJsonFromText text = .error noJsonFoundMsg ↔
      (text ≠ "" ∧ (fencedGroup text = none ∨ fencedGroup text = some "") ∧
       jsonParse text = none ∧ braceSlice text = none)) := by
  refine ⟨?_, ?_, ?_, ?_, ?_, ?_⟩
  · intro h
    simp [parseJsonFromText, h]
  · intro g hne hg hgne
    simp [parseJsonFromText, hne, hg, hgne]
  · intro hne hcase
    rcases hcase with h | h <;> simp [parseJsonFromText, hne, h]
  · intro v hv
    simp [parseWholeOrSlice, hv]
  · intro hv s hs
    simp [parseWholeOrSlice, hv, hs]
  · constructor
    · intro h
      by_cases hne : text = ""
      · rw [hne] at h
        have hmsg : emptyResponseMsg = noJsonFoundMsg := Except.error.inj h
        exact absurd hmsg (by decide)
      · refine ⟨hne, ?_⟩
        cases hf : fencedGroup text with
        | none =>
          rw [show parseJsonFromText text = parseWholeOrSlice text by
            simp [parseJsonFromText, hne, hf]] at h
          cases hj : jsonParse text with
          | some v => rw [show parseWholeOrSlice text = .ok v by
              simp [parseWholeOrSlice, hj]] at h; cases h
          | none =>
            cases hb : braceSlice text with
            | some sl =>
              rw [show parseWholeOrSlice text = jparse sl by
                simp [parseWholeOrSlice, hj, hb]] at h
              cases hp : jsonParse sl with
              | some v => simp [jparse, hp] at h
              | none =>
                rw [show jparse sl = .error jsonSyntaxErrMsg by
                  simp [jparse, hp]] at h
                exact absurd (Except.error.inj h) (by decide)
            | none => exact ⟨Or.inl rfl, rfl, rfl⟩
        | some g =>
          by_cases hge : g = ""
          · subst hge
            rw [show parseJsonFromText text = parseWholeOrSlice text by
              simp [parseJsonFromText, hne, hf]] at h
            cases hj : jsonParse text with
            | some v => rw [show parseWholeOrSlice text = .ok v by
                simp [parseWholeOrSlice, hj]] at h; cases h
            | none =>
              cases hb : braceSlice text with
              | some sl =>
                rw [show parseWholeOrSlice text = jparse sl by
                  simp [parseWholeOrSlice, hj, hb]] at h
                cases hp : jsonParse sl with
                | some v => simp [jparse, hp] at h
                | none =>
                  rw [show jparse sl = .error jsonSyntaxErrMsg by
                    simp [jparse, hp]] at h
                  exact absurd (Except.error.inj h) (by decide)
              | none => exact ⟨Or.inr rfl, rfl, rfl⟩
          · rw [show parseJsonFromText text = jparse g by
              simp [parseJsonFromText, hne, hf, hge]] at h
            cases hp : jsonParse g with
            | some v => simp [jparse, hp] at h
            | none =>
              rw [show jparse g = .error jsonSyntaxErrMsg by
                simp [jparse, hp]] at h
              exact absurd (Except.error.inj h) (by decide)
    · rintro ⟨hne, hf, hj, hb⟩
      rcases hf with h | h <;>
        simp [parseJsonFromText, hne, h, parseWholeOrSlice, hj, hb]

/-- The brace-slicing scenario of the claim: no fence, valid JSON between
the braces, trailing prose. -/
def sliceScenarioText : String := "Result: \x7b\"score\": 5\x7d thanks"

/-- C2 witness: on the brace-slicing scenario the chain theorem yields
success with the parsed slice. -/
theorem parseJsonFromText_chain_witness :
    parseJsonFromText sliceScenarioText = jparse "\x7b\"score\": 5\x7d" ∧
    jparse "\x7b\"score\": 5\x7d" = .ok (.obj [("score", .num (.fin 5))]) := by
  constructor
  · have h1 := (parseJsonFromText_chain sliceScenarioText).2.2.1
      (by decide) (Or.inl rfl)
    have h2 := (parseJsonFromText_chain sliceScenarioText).2.2.2.2.1
      rfl "\x7b\"score\": 5\x7d" rfl
    rw [h1, h2]
  · rfl

/-- A completion whose labeled fence holds unparseable text while a valid
JSON object follows after the fence. -/
def fenceBadText : String := "```json\nnot json\n```\n\x7b\"a\": 1\x7d"

/-- C2 counterexample: the fenced block matches but its interior fails to
parse, and the failure propagates as a `SyntaxError` instead of trying the
remaining strategies — even though brace-slicing would have succeeded on
the very same text — and instead of the no-structured-output error. -/
theorem parseJsonFromText_counterexample :
    parseJsonFromText fenceBadText = .error jsonSyntaxErrMsg ∧
    jsonSyntaxErrMsg ≠ noJsonFoundMsg ∧
    braceSlice fenceBadText = some "\x7b\"a\": 1\x7d" ∧
    jsonParse "\x7b\"a\": 1\x7d" = some (.obj [("a", .num (.fin 1))]) :=
  ⟨rfl, by decide, rfl, rfl⟩

/-- C6 (amended): when Firestore was never initialized (the backing store
is unavailable), `storeResult` resolves to a soft-failure indicator
(`stored: false` with a reason) instead of raising, and a run whose
completion result validated successfully still reports success carrying
that indicator. (An exception thrown by the store's `add` call, however,
is *not* soft-failed: it propagates and the run reports failure — see the
counterexample.) -/
theorem analyze_storeUnavailable (env : AnalyzeEnv) (t : String) (v : JSVal)
    (h1 : env.llmText = .ok t) (h2 : parseJsonFromText t = .ok v)
    (h3 : validateOutput v = .ok ()) (h4 : env.dbAvailable = false) :
    analyze env = .ok
      { success := true,
        analysis := enrichResult v env.durationMs,
        storage :=
          { stored := false, id := none,
            reason := some "firestore_not_available" } } := by
  simp [analyze, h1, h2, h3, storeResult, h4]

/-- A completion text that is exactly a valid, validating JSON object. -/
def goodJsonText : String :=
  "\x7b\"score\": 42, \"analysis\": \"a\", \"reasoning\": \"r\", \"key_factors\": [\"f\"]\x7d"

/-- The object `goodJsonText` parses to. -/
def goodParsed : JSVal :=
  .obj [("score", .num (.fin 42)), ("analysis", .str "a"),
    ("reasoning", .str "r"), ("key_factors", .arr [.str "f"])]

/-- A run with the backing store uninitialized. -/
def envNoDb : AnalyzeEnv :=
  { llmText := .ok goodJsonText, dbAvailable := false,
    addOutcome := .ok "id1", durationMs := 10 }

/-- C6 witness: the claim theorem applied to a concrete store-unavailable
run with a validating completion. -/
theorem analyze_storeUnavailable_witness :
    analyze envNoDb = .ok
      { success := true,
        analysis := enrichResult goodParsed envNoDb.durationMs,
        storage :=
          { stored := false, id := none,
            reason := some "firestore_not_available" } } :=
  analyze_storeUnavailable envNoDb goodJsonText goodParsed rfl rfl rfl rfl

/-- A run in which Firestore is available but the `add` call rejects. -/
def envAddFails : AnalyzeEnv :=
  { llmText := .ok goodJsonText, dbAvailable := true,
    addOutcome := .error "firestore add failed", durationMs := 10 }

/-- C6 counterexample: the completion result validates successfully, yet a
*failure* of the backing store (the `add` call rejecting) propagates out
of `storeResult` and the run reports failure — refuting "unavailability or
failure of the backing store never causes the run to be reported as
failed". -/
theorem analyze_storeFailure_counterexample :
    analyze envAddFails = .error "firestore add failed" ∧
    parseJsonFromText goodJsonText = .ok goodParsed ∧
    validateOutput goodParsed = .ok () :=
  ⟨rfl, rfl, rfl⟩

/-- C7: when the completion call returns text from which no JSON can be
extracted (the extraction chain ends in the no-structured-output error),
`analyze` reports failure with exactly that error, and `storeResult` is
never invoked: the outcome is independent of the store's availability and
of the `add` call's outcome, and nothing is persisted. -/
theorem analyze_noStructuredOutput (env : AnalyzeEnv) (t : String)
    (h1 : env.llmText = .ok t)
    (h2 : parseJsonFromText t = .error noJsonFoundMsg) :
    analyze env = .error noJsonFoundMsg ∧
    (∀ (db : Bool) (add : Except String String),
      analyze { env with dbAvailable := db, addOutcome := add } =
        .error noJsonFoundMsg) := by
  constructor
  · simp [analyze, h1, h2]
  · intro db add
    simp [analyze, h1, h2]

/-- A completion consisting of prose with no JSON at all. -/
def proseText : String := "I cannot provide a numeric assessment today."

/-- A run whose completion is prose only. -/
def envProse : AnalyzeEnv :=
  { llmText := .ok proseText, dbAvailable := true,
    addOutcome := .ok "id9", durationMs := 3 }

/-- C7 witness: the claim theorem applied to a concrete prose-only run. -/
theorem analyze_noStructuredOutput_witness :
    analyze envProse = .error noJsonFoundMsg :=
  (analyze_noStructuredOutput envProse proseText rfl rfl).1

theorem lookup_map_replace (fields : List (String × JSVal)) (k : String) (v : JSVal)
    (k' : String) (h : k' ≠ k) :
    lookupField (fields.map fun p => if p.1 = k then (k, v) else p) k' =
      lookupField fields k' := by
  induction fields with
  | nil => rfl
  | cons p ps ih =>
    by_cases hp : p.1 = k
    · rw [List.map_cons, if_pos hp]
      have h1 : ¬ ((k, v).1 = k') := Ne.symm h
      have h2 : ¬ (p.1 = k') := by rw [hp]; exact Ne.symm h
      simp only [lookupField]
      rw [if_neg h1, if_neg h2]
      exact ih
    · rw [List.map_cons, if_neg hp]
      simp only [lookupField]
      rw [ih]

theorem lookup_append_single (fields : List (String × JSVal)) (k : String)
    (v : JSVal) (k' : String) (h : k' ≠ k) :
    lookupField (fields ++ [(k, v)]) k' = lookupField fields k' := by
  induction fields with
  | nil => simp [lookupField, Ne.symm h]
  | cons p ps ih => simp [lookupField, ih]

theorem lookup_setField_ne (fields : List (String × JSVal)) (k : String)
    (v : JSVal) (k' : String) (h : k' ≠ k) :
    lookupField (setField fields k v) k' = lookupField fields k' := by
  unfold setField
  split
  · exact lookup_map_replace fields k v k' h
  · exact lookup_append_single fields k v k' h

theorem optGet_setField_ne (fields : List (String × JSVal)) (k : String)
    (v : JSVal) (k' : String) (h : k' ≠ k) :
    optGet (.obj (setField fields k v)) k' = optGet (.obj fields) k' := by
  simp [optGet, lookup_setField_ne fields k v k' h]

theorem validateOutput_ok_obj (v : JSVal) (h : validateOutput v = .ok ()) :
    ∃ fields, v = .obj fields := by
  cases v with
  | obj fields => exact ⟨fields, rfl⟩
  | undefined => simp [validateOutput, checkRequired, propPresent, requiredKeys] at h
  | null => simp [validateOutput, checkRequired, propPresent, requiredKeys] at h
  | bool b => simp [validateOutput, checkRequired, propPresent, requiredKeys] at h
  | num n => simp [validateOutput, checkRequired, propPresent, requiredKeys] at h
  | str s => simp [validateOutput, checkRequired, propPresent, requiredKeys] at h
  | arr xs => simp [validateOutput, checkRequired, propPresent, requiredKeys] at h

/-- C9 (amended): every result of a successful pipeline run is a plain
object that carries all four required fields, a *finite* numeric score in
the inclusive range `[1, 100]` (not necessarily an integer — `validateOutput`
never checks integrality), and a `key_factors` that is a sequence; the
types of `analysis`, `reasoning` and of the `key_factors` elements are not
validated, so they need not be strings. -/
theorem analyze_resultShape (env : AnalyzeEnv) (r : AnalyzeSuccess)
    (h : analyze env = .ok r) :
    r.success = true ∧
    (∃ fields, r.analysis = .obj fields ∧
      ∀ k ∈ requiredKeys, (lookupField fields k).isSome) ∧
    (∃ q : ℚ, optGet r.analysis "score" = .num (.fin q) ∧ 1 ≤ q ∧ q ≤ 100) ∧
    (∃ xs, optGet r.analysis "key_factors" = .arr xs) := by
  cases hl : env.llmText with
  | error e => simp [analyze, hl] at h
  | ok t =>
    simp only [analyze, hl] at h
    cases hp : parseJsonFromText t with
    | error e => simp [hp] at h
    | ok parsed =>
      simp only [hp] at h
      cases hv : validateOutput parsed with
      | error e => simp [hv] at h
      | ok u =>
        cases u
        simp only [hv] at h
        cases hs : storeResult env.dbAvailable env.addOutcome with
        | error e => simp [hs] at h
        | ok st =>
          simp only [hs] at h
          injection h with h
          subst h
          obtain ⟨fields, rfl⟩ := validateOutput_ok_obj parsed hv
          obtain ⟨hall, hscore, harr⟩ := (validateOutput_obj_ok_iff fields).mp hv
          have hmeta : ∀ k ∈ requiredKeys, k ≠ "analysis_metadata" := by decide
          refine ⟨rfl, ?_, ?_, ?_⟩
          · refine ⟨setField fields "analysis_metadata" (analysisMeta env.durationMs),
              rfl, ?_⟩
            intro k hk
            rw [lookup_setField_ne fields _ _ k (hmeta k hk)]
            exact hall k hk
          · have hget : optGet
                (enrichResult (.obj fields) env.durationMs) "score" =
                optGet (.obj fields) "score" := by
              simp only [enrichResult]
              exact optGet_setField_ne fields _ _ "score" (by decide)
            rw [show (AnalyzeSuccess.mk true
              (enrichResult (.obj fields) env.durationMs) st).analysis =
                enrichResult (.obj fields) env.durationMs from rfl, hget]
            exact (scoreBad_eq_false_iff _).mp hscore
          · have hget : optGet
                (enrichResult (.obj fields) env.durationMs) "key_factors" =
                optGet (.obj fields) "key_factors" := by
              simp only [enrichResult]
              exact optGet_setField_ne fields _ _ "key_factors" (by decide)
            rw [show (AnalyzeSuccess.mk true
              (enrichResult (.obj fields) env.durationMs) st).analysis =
                enrichResult (.obj fields) env.durationMs from rfl, hget]
            exact (isArrayV_iff _).mp harr

/-- The expected result record of the run `envNoDb`. -/
def resNoDb : AnalyzeSuccess :=
  { success := true, analysis := enrichResult goodParsed 10,
    storage :=
      { stored := false, id := none,
        reason := some "firestore_not_available" } }

/-- C9 witness: the claim theorem applied to a concrete successful run. -/
theorem analyze_resultShape_witness :
    resNoDb.success = true ∧
    (∃ fields, resNoDb.analysis = .obj fields ∧
      ∀ k ∈ requiredKeys, (lookupField fields k).isSome) ∧
    (∃ q : ℚ, optGet resNoDb.analysis "score" = .num (.fin q) ∧ 1 ≤ q ∧ q ≤ 100) ∧
    (∃ xs, optGet resNoDb.analysis "key_factors" = .arr xs) := by
  have hp : parseJsonFromText goodJsonText = .ok goodParsed := rfl
  have hv : validateOutput goodParsed = .ok () := rfl
  refine analyze_resultShape envNoDb resNoDb ?_
  simp only [analyze, envNoDb, hp, hv, storeResult, resNoDb]
  rfl

/-- A completion whose score is the non-integer `99.5` and whose
`analysis`, `reasoning` and `key_factors` elements are not strings. -/
def nonIntScoreText : String :=
  "\x7b\"score\": 99.5, \"analysis\": 1, \"reasoning\": true, \"key_factors\": [2]\x7d"

/-- A run receiving `nonIntScoreText` with the store uninitialized. -/
def envNonInt : AnalyzeEnv :=
  { llmText := .ok nonIntScoreText, dbAvailable := false,
    addOutcome := .ok "x", durationMs := 0 }

/-- C9 counterexample: a pipeline run succeeds although its score is
`199/2` (not an integer) and its `analysis` is the number `1` (not a
string), refuting "integer score" and "string analysis". -/
theorem analyze_resultShape_counterexample :
    analyze envNonInt = .ok
      { success := true,
        analysis := .obj [("score", .num (.fin (mkRat 199 2))),
          ("analysis", .num (.fin 1)), ("reasoning", .bool true),
          ("key_factors", .arr [.num (.fin 2)]),
          ("analysis_metadata", analysisMeta 0)],
        storage :=
          { stored := false, id := none,
            reason := some "firestore_not_available" } } ∧
    (mkRat 199 2).den ≠ 1 :=
  ⟨rfl, by decide⟩
